import Mathlib

/-!
Shallow embedding of `src/multi_url.py` (Pydantic_AI_Crawler).

The repository's core is the async orchestrator `crawl_parallel`, the
`MemoryTracker` resource monitor, and the sitemap reader
`get_sitemap_urls`.  External collaborators (the crawl4ai engine, the
filesystem, psutil, aiohttp, ElementTree) are modelled as an environment
that supplies the outcome of each external call; the orchestrator's own
control flow, state updates and string construction are translated
line by line from the source.
-/

/-- One process-resource reading supplied by the environment (psutil):
resident set size in bytes, cpu percent, and the formatted elapsed time
string `str(datetime.now() - self.start_time)`. -/
structure Reading where
  mem : Nat
  cpu : Nat
  elapsed : String
deriving DecidableEq

/-- The `stats` dict returned by `MemoryTracker.log_memory`
(src/multi_url.py lines 42-52). -/
structure MemStats where
  current_mb : Nat
  peak_mb : Nat
  cpu_percent : Nat
  elapsed_time : String
deriving DecidableEq

/-- The `MemoryTracker` object: only its mutable `peak_memory` field is
orchestrator state (the psutil process handle and start time live in the
environment). `peak_memory` starts at 0 (src/multi_url.py line 38). -/
structure MemoryTracker where
  peak_memory : Nat
deriving DecidableEq

/-- `MemoryTracker.log_memory` (src/multi_url.py lines 42-58): reads the
current RSS, raises the running peak if exceeded, and returns the stats
dict with both figures in whole MB (floor division by 1024*1024). -/
def MemoryTracker.log_memory (t : MemoryTracker) (r : Reading) :
    MemoryTracker × MemStats :=
  let peak := if r.mem > t.peak_memory then r.mem else t.peak_memory
  (⟨peak⟩,
    { current_mb := r.mem / (1024 * 1024)
      peak_mb := peak / (1024 * 1024)
      cpu_percent := r.cpu
      elapsed_time := r.elapsed })

/-- Outcome of one `crawler.arun` task as seen after
`asyncio.gather(..., return_exceptions=True)` (src/multi_url.py line 116):
either a raised exception (carrying its type name `type(result).__name__`
and message), or a result object with a `success` flag and an optional
`markdown` payload. -/
inductive Outcome where
  | exn (errorType message : String)
  | res (flag : Bool) (markdown : Option String)
deriving DecidableEq

/-- Python truthiness of `result.markdown` (src/multi_url.py line 128):
`None` and the empty string are falsy. -/
def mdTruthy : Option String → Bool
  | none => false
  | some s => s ≠ ""

/-- Predicate for outcomes that take the `elif result.success:` branch. -/
def isSuccessRes : Outcome → Bool
  | .res true _ => true
  | _ => false

/-- Predicate for outcomes that take the `isinstance(result, Exception)`
branch. -/
def isExn : Outcome → Bool
  | .exn _ _ => true
  | _ => false

/-- The Python dict update
`stats["errors"][k] = stats["errors"].get(k, 0) + 1`
(src/multi_url.py line 121): an existing key is bumped in place keeping
its position, a new key is appended (dict insertion order). -/
def incrErr : List (String × Nat) → String → List (String × Nat)
  | [], k => [(k, 1)]
  | (k0, v) :: rest, k =>
      if k0 = k then (k0, v + 1) :: rest else (k0, v) :: incrErr rest k

/-- Total number of recorded error occurrences in the histogram. -/
def errTotal (l : List (String × Nat)) : Nat :=
  (l.map Prod.snd).sum

/-- Histogram lookup, 0 when the kind is absent. -/
def errCount : List (String × Nat) → String → Nat
  | [], _ => 0
  | (k0, v) :: rest, k => if k0 = k then v else errCount rest k

/-- The `stats` dict of `crawl_parallel` (src/multi_url.py line 94). -/
structure Stats where
  success_count : Nat
  fail_count : Nat
  errors : List (String × Nat)
  memory_stats : List MemStats
deriving DecidableEq

/-- Exceptions that can cross `crawl_parallel`'s own frame: a failing
`crawler.start()`, the `ValueError` from `range(0, len(urls), 0)` when
`max_concurrent = 0`, a failing `write_text`, and a failing
`crawler.close()`. -/
inductive Fault where
  | startFailure
  | valueError
  | writeFailure (name : String)
  | closeFailure
deriving DecidableEq

/-- Environment for one run: whether `crawler.start()` and
`crawler.close()` succeed, whether the n-th `write_text` call succeeds,
and the psutil reading consumed by the n-th `log_memory` call. -/
structure CrawlEnv where
  startOk : Bool
  closeOk : Bool
  writeOk : Nat → Bool
  readings : Nat → Reading

/-- Orchestrator state threaded through a run: the `stats` dict, the
memory tracker, counters of consumed readings and attempted writes, the
ordered list of attempted artifact writes (name, content), and how many
times `crawler.close()` has been invoked. -/
structure RunState where
  stats : Stats
  tracker : MemoryTracker
  readIdx : Nat
  writeIdx : Nat
  writes : List (String × String)
  closeCount : Nat
deriving DecidableEq

/-- Initial `stats` dict (src/multi_url.py line 94). -/
def initStats : Stats :=
  { success_count := 0, fail_count := 0, errors := [], memory_stats := [] }

/-- State at the top of `crawl_parallel`. -/
def initState : RunState :=
  { stats := initStats, tracker := ⟨0⟩, readIdx := 0, writeIdx := 0
    writes := [], closeCount := 0 }

/-- The per-item classification loop
`for url, result in zip(batch, results): ...`
(src/multi_url.py lines 119-133).  An exception outcome bumps the error
histogram and `fail_count`; a result with `success` true bumps
`success_count` and, when `result.markdown` is truthy, writes
`page_{success_count}.md`; a result with `success` false bumps
`fail_count`.  A failing `write_text` raises, aborting the loop. -/
def processItems (env : CrawlEnv) (st : RunState) :
    List (String × Outcome) → RunState × Option Fault
  | [] => (st, none)
  | (_, o) :: rest =>
    match o with
    | .exn ty _ =>
        processItems env
          { st with stats :=
              { st.stats with
                  errors := incrErr st.stats.errors ty
                  fail_count := st.stats.fail_count + 1 } } rest
    | .res true md =>
        let st1 := { st with stats :=
          { st.stats with success_count := st.stats.success_count + 1 } }
        if mdTruthy md then
          let name := "page_" ++ toString st1.stats.success_count ++ ".md"
          let wIdx := st1.writeIdx
          let st2 := { st1 with
            writes := st1.writes ++ [(name, md.getD "")]
            writeIdx := wIdx + 1 }
          if env.writeOk wIdx then processItems env st2 rest
          else (st2, some (.writeFailure name))
        else processItems env st1 rest
    | .res false _ =>
        processItems env
          { st with stats :=
              { st.stats with fail_count := st.stats.fail_count + 1 } } rest

/-- The snapshot step performed before each batch and once during
finalization (src/multi_url.py lines 109-112 and 145-146): call
`memory_tracker.log_memory`, consume one reading, and append the returned
stats dict to `stats["memory_stats"]`. -/
def snapStep (env : CrawlEnv) (st : RunState) : RunState :=
  { st with
    tracker := (st.tracker.log_memory (env.readings st.readIdx)).1
    readIdx := st.readIdx + 1
    stats := { st.stats with
      memory_stats := st.stats.memory_stats
        ++ [(st.tracker.log_memory (env.readings st.readIdx)).2] } }

/-- The batch loop of `crawl_parallel` with explicit fuel (instantiated
with `urls.length`, which suffices when `max_concurrent > 0`): each
iteration takes the memory snapshot, then classifies the batch
`urls[i : i + c]` zipped with its gathered outcomes, and recurses on the
remaining URLs. -/
def runBatchesGo (env : CrawlEnv) (c : Nat) :
    Nat → List String → List Outcome → RunState → RunState × Option Fault
  | _, [], _, st => (st, none)
  | 0, _ :: _, _, st => (st, none)
  | fuel + 1, u :: us, outs, st =>
    let st1 := snapStep env st
    match processItems env st1 (((u :: us).take c).zip (outs.take c)) with
    | (st2, some f) => (st2, some f)
    | (st2, none) => runBatchesGo env c fuel ((u :: us).drop c) (outs.drop c) st2

/-- The body of the `try:` block of `crawl_parallel`
(src/multi_url.py lines 100-140): with `max_concurrent = 0` the
`range(0, len(urls), 0)` call raises `ValueError` at once; otherwise the
batch loop runs. -/
def tryBody (env : CrawlEnv) (urls : List String) (outs : List Outcome)
    (c : Nat) : RunState × Option Fault :=
  if c = 0 then (initState, some .valueError)
  else runBatchesGo env c urls.length urls outs initState

/-- One line of the error histogram: `f"- {k}: {v}"`
(src/multi_url.py line 158). -/
def errLine (kv : String × Nat) : String :=
  "- " ++ kv.1 ++ ": " ++ toString kv.2

/-- The summary report string of `crawl_parallel`
(src/multi_url.py lines 151-160), concatenated exactly as the source's
f-strings are. -/
def renderSummary (total : Nat) (stats : Stats) (fs : MemStats) : String :=
  "Crawling Summary\n================\nTotal URLs: " ++ toString total
    ++ "\nSuccessful: " ++ toString stats.success_count
    ++ "\nFailed: " ++ toString stats.fail_count
    ++ "\nError types:\n"
    ++ String.intercalate "\n" (stats.errors.map errLine)
    ++ "\n\nPeak memory usage: " ++ toString fs.peak_mb
    ++ "MB\nTotal time: " ++ fs.elapsed_time ++ "\n"

/-- The `finally:` block of `crawl_parallel`
(src/multi_url.py lines 142-162): `crawler.close()` is invoked; if it
raises, its failure propagates (replacing any in-flight exception) and the
rest of the block is skipped; otherwise a final memory snapshot is
appended, the summary is rendered and written to `summary.txt`, and a
failing summary write likewise replaces any in-flight exception; when the
block completes normally the in-flight exception (if any) resumes. -/
def finalize (env : CrawlEnv) (total : Nat) (st : RunState)
    (inflight : Option Fault) : RunState × Option Fault :=
  let st1 := { st with closeCount := st.closeCount + 1 }
  if env.closeOk then
    let st2 := snapStep env st1
    let summary := renderSummary total st2.stats
      ((st1.tracker.log_memory (env.readings st1.readIdx)).2)
    let wIdx := st2.writeIdx
    let st3 := { st2 with
      writes := st2.writes ++ [("summary.txt", summary)]
      writeIdx := wIdx + 1 }
    if env.writeOk wIdx then (st3, inflight)
    else (st3, some (.writeFailure "summary.txt"))
  else (st1, some .closeFailure)

/-- `crawl_parallel(urls, max_concurrent)` (src/multi_url.py lines 61-165):
`crawler.start()` runs before the `try:`, so a start failure propagates
without the `finally:` block ever running; otherwise the try body runs and
the `finally:` block closes the engine.  `outs` supplies, positionally,
the gathered outcome of `crawler.arun` for each URL. -/
def crawl_parallel (env : CrawlEnv) (urls : List String)
    (outs : List Outcome) (max_concurrent : Nat) : RunState × Option Fault :=
  if env.startOk then
    let p := tryBody env urls outs max_concurrent
    finalize env urls.length p.1 p.2
  else (initState, some .startFailure)

/-- Fueled worker for `chunks` (structural recursion so that concrete
runs reduce). -/
def chunksGo (c : Nat) : Nat → List α → List (List α)
  | _, [] => []
  | 0, _ :: _ => []
  | fuel + 1, x :: xs => (x :: xs).take c :: chunksGo c fuel ((x :: xs).drop c)

/-- The batch partition produced by
`urls[i : i + max_concurrent] for i in range(0, len(urls), max_concurrent)`
(src/multi_url.py lines 100-101). -/
def chunks (c : Nat) (l : List α) : List (List α) :=
  chunksGo c l.length l

/-- The sequence of page artifacts a run writes, per the spec's artifact
contract: each item whose result has `success` true raises the success
ordinal, and writes `page_{n}.md` (with `n` the ordinal after the
increment) exactly when its content is non-empty. -/
def pagesSpec : Nat → List Outcome → List (String × String)
  | _, [] => []
  | n, .res true md :: rest =>
      if mdTruthy md then
        ("page_" ++ toString (n + 1) ++ ".md", md.getD "") :: pagesSpec (n + 1) rest
      else pagesSpec (n + 1) rest
  | n, .exn _ _ :: rest => pagesSpec n rest
  | n, .res false _ :: rest => pagesSpec n rest

/-- Accumulated effect of a list of outcomes on the error histogram. -/
def foldErrs : List (String × Nat) → List Outcome → List (String × Nat)
  | e, [] => e
  | e, .exn ty _ :: rest => foldErrs (incrErr e ty) rest
  | e, .res _ _ :: rest => foldErrs e rest

/-- All writes of the environment succeed. -/
def writesOk (env : CrawlEnv) : Prop :=
  ∀ i, env.writeOk i = true

/-- A parsed XML element as ElementTree exposes it: a fully qualified tag
(namespace in braces), the element's text (which is absent for an empty
element), and the child elements in document order. -/
inductive XmlNode where
  | elem (tag : String) (text : Option String) (children : List XmlNode)

/-- Tag of an element. -/
def XmlNode.tag : XmlNode → String
  | .elem t _ _ => t

/-- Text of an element (`loc.text` in the source, `None` when empty). -/
def XmlNode.text : XmlNode → Option String
  | .elem _ t _ => t

mutual
/-- All proper descendants of an element in document order, as
`root.findall(".//tag")` enumerates candidates. -/
def XmlNode.descendants : XmlNode → List XmlNode
  | .elem _ _ cs => descendantsList cs
/-- Helper for `XmlNode.descendants` over a child list. -/
def descendantsList : List XmlNode → List XmlNode
  | [] => []
  | c :: cs => (c :: XmlNode.descendants c) ++ descendantsList cs
end

/-- The qualified tag that `root.findall(".//ns:loc", namespace)` matches
with `namespace = \x7b"ns": "http://www.sitemaps.org/schemas/sitemap/0.9"\x7d`
(src/multi_url.py lines 179-180). -/
def sitemapLocTag : String :=
  "\x7bhttp://www.sitemaps.org/schemas/sitemap/0.9\x7dloc"

/-- `root.findall(".//ns:loc", namespace)`: the descendants of the root
whose qualified tag is the sitemap `loc` tag, in document order. -/
def findLocs (root : XmlNode) : List XmlNode :=
  root.descendants.filter (fun n => n.tag == sitemapLocTag)

/-- How the body of `get_sitemap_urls`'s `try:` block can end, decided by
the external collaborators: an `aiohttp.ClientError` (including the
`raise_for_status` path), an `ElementTree.ParseError`, any other
exception, or a successfully parsed XML root. -/
inductive SitemapResponse where
  | clientError (msg : String)
  | parseError (msg : String)
  | otherError (msg : String)
  | parsed (root : XmlNode)

/-- The log line `get_sitemap_urls` emits, with the distinguishing kind
of a failure (src/multi_url.py lines 183-192). -/
inductive SitemapLog where
  | netErr (msg : String)
  | xmlErr (msg : String)
  | unexpectedErr (msg : String)
  | found (count : Nat)
deriving DecidableEq

/-- `get_sitemap_urls` (src/multi_url.py lines 168-194): on success it
returns `[loc.text for loc in root.findall(".//ns:loc", namespace)]` and
logs the count; each failure kind is logged and yields `[]`. -/
def get_sitemap_urls : SitemapResponse → List (Option String) × SitemapLog
  | .parsed root =>
      let urls := (findLocs root).map XmlNode.text
      (urls, .found urls.length)
  | .clientError m => ([], .netErr m)
  | .parseError m => ([], .xmlErr m)
  | .otherError m => ([], .unexpectedErr m)

/-- Modelled from the spec: the summary format block of spec section 6,
read literally — each field on its own line, the error-kind lines directly
followed by the peak-memory line, and no trailing newline. -/
def renderSummarySpec (total : Nat) (stats : Stats) (fs : MemStats) : String :=
  "Crawling Summary\n================\nTotal URLs: " ++ toString total
    ++ "\nSuccessful: " ++ toString stats.success_count
    ++ "\nFailed: " ++ toString stats.fail_count
    ++ "\nError types:\n"
    ++ String.intercalate "\n" (stats.errors.map errLine)
    ++ "\nPeak memory usage: " ++ toString fs.peak_mb
    ++ "MB\nTotal time: " ++ fs.elapsed_time

/-- Modelled from the spec: the section-6 format amended with the two
deviations the source's string concatenation actually produces — a blank
line separating the error-kind list from the peak-memory line (the
separator collapses to two blank lines when the histogram is empty) and a
trailing newline after the total-time line. -/
def renderSummarySpecFixed (total : Nat) (stats : Stats) (fs : MemStats) :
    String :=
  "Crawling Summary\n================\nTotal URLs: " ++ toString total
    ++ "\nSuccessful: " ++ toString stats.success_count
    ++ "\nFailed: " ++ toString stats.fail_count
    ++ "\nError types:\n"
    ++ String.intercalate "\n" (stats.errors.map errLine)
    ++ "\n" ++ "\nPeak memory usage: " ++ toString fs.peak_mb
    ++ "MB\nTotal time: " ++ fs.elapsed_time ++ "\n"

/-- A concrete environment in which every external call succeeds and every
resource reading is zero. -/
def envAllOk : CrawlEnv :=
  ⟨true, true, fun _ => true, fun _ => ⟨0, 0, "t"⟩⟩

/-- A concrete environment in which the engine closes but every artifact
write fails. -/
def envWriteFail : CrawlEnv :=
  ⟨true, true, fun _ => false, fun _ => ⟨0, 0, "t"⟩⟩

/-- A concrete environment in which engine close fails. -/
def envCloseFail : CrawlEnv :=
  ⟨true, false, fun _ => true, fun _ => ⟨0, 0, "t"⟩⟩

/-- A concrete environment in which every artifact write fails and engine
close also fails. -/
def envMaskFail : CrawlEnv :=
  ⟨true, false, fun _ => false, fun _ => ⟨0, 0, "t"⟩⟩

/-- A concrete environment in which engine start fails. -/
def envStartFail : CrawlEnv :=
  ⟨false, true, fun _ => true, fun _ => ⟨0, 0, "t"⟩⟩

/-- Ceiling-division unfolds by one step of size `c`. -/
lemma ceil_div_step (c n : Nat) (hc : 0 < c) (hn : 0 < n) :
    (n + c - 1) / c = (n - c + c - 1) / c + 1 := by
  rcases le_or_lt c n with h | h
  · have he : n + c - 1 = (n - c + c - 1) + c := by omega
    rw [he, Nat.add_div_right _ hc]
  · have h1 : n - c = 0 := by omega
    rw [h1]
    have h2 : (0 + c - 1) / c = 0 := Nat.div_eq_of_lt (by omega)
    rw [h2]
    exact Nat.div_eq_of_lt_le (by omega) (by omega)

/-- Concatenating the fueled chunks recovers the original list. -/
lemma chunksGo_join {α : Type} (c : Nat) (hc : 0 < c) :
    ∀ (fuel : Nat) (l : List α), l.length ≤ fuel →
      (chunksGo c fuel l).flatten = l := by
  intro fuel
  induction fuel with
  | zero =>
    intro l hl
    have hnil : l = [] := by
      cases l with
      | nil => rfl
      | cons x xs => simp at hl
    subst hnil
    simp [chunksGo]
  | succ n ih =>
    intro l hl
    cases l with
    | nil => simp [chunksGo]
    | cons x xs =>
      have hd : ((x :: xs).drop c).length ≤ n := by
        simp only [List.length_drop, List.length_cons]
        simp only [List.length_cons] at hl
        omega
      simp only [chunksGo, List.flatten_cons, ih _ hd, List.take_append_drop]

/-- The number of fueled chunks is the ceiling of length over `c`. -/
lemma chunksGo_length {α : Type} (c : Nat) (hc : 0 < c) :
    ∀ (fuel : Nat) (l : List α), l.length ≤ fuel →
      (chunksGo c fuel l).length = (l.length + c - 1) / c := by
  intro fuel
  induction fuel with
  | zero =>
    intro l hl
    have hnil : l = [] := by
      cases l with
      | nil => rfl
      | cons x xs => simp at hl
    subst hnil
    simp [chunksGo]
    exact (Nat.div_eq_of_lt (by omega)).symm
  | succ n ih =>
    intro l hl
    cases l with
    | nil =>
      simp [chunksGo]
      exact (Nat.div_eq_of_lt (by omega)).symm
    | cons x xs =>
      have hd : ((x :: xs).drop c).length ≤ n := by
        simp only [List.length_drop, List.length_cons]
        simp only [List.length_cons] at hl
        omega
      have hlen : (x :: xs).length > 0 := by simp
      rw [ceil_div_step c (x :: xs).length hc hlen]
      simp only [chunksGo, List.length_cons, ih _ hd, List.length_drop]

/-- Every fueled chunk is non-empty and no longer than `c`. -/
lemma chunksGo_sizes {α : Type} (c : Nat) (hc : 0 < c) :
    ∀ (fuel : Nat) (l : List α), l.length ≤ fuel →
      ∀ b ∈ chunksGo c fuel l, b ≠ [] ∧ b.length ≤ c := by
  intro fuel
  induction fuel with
  | zero =>
    intro l hl b hb
    have hnil : l = [] := by
      cases l with
      | nil => rfl
      | cons x xs => simp at hl
    subst hnil
    simp [chunksGo] at hb
  | succ n ih =>
    intro l hl b hb
    cases l with
    | nil => simp [chunksGo] at hb
    | cons x xs =>
      have hd : ((x :: xs).drop c).length ≤ n := by
        simp only [List.length_drop, List.length_cons]
        simp only [List.length_cons] at hl
        omega
      simp only [chunksGo, List.mem_cons] at hb
      rcases hb with hb | hb
      · subst hb
        constructor
        · have hlen : ((x :: xs).take c).length > 0 := by
            simp only [List.length_take, List.length_cons]
            omega
          exact List.ne_nil_of_length_pos hlen
        · simp only [List.length_take]
          omega
      · exact ih _ hd b hb

/-- Every fueled chunk except possibly the last has length exactly `c`. -/
lemma chunksGo_full {α : Type} (c : Nat) (hc : 0 < c) :
    ∀ (fuel : Nat) (l : List α), l.length ≤ fuel →
      ∀ i, i + 1 < (chunksGo c fuel l).length →
        ((chunksGo c fuel l).getD i []).length = c := by
  intro fuel
  induction fuel with
  | zero =>
    intro l hl i hi
    have hnil : l = [] := by
      cases l with
      | nil => rfl
      | cons x xs => simp at hl
    subst hnil
    simp [chunksGo] at hi
  | succ n ih =>
    intro l hl i hi
    cases l with
    | nil => simp [chunksGo] at hi
    | cons x xs =>
      have hd : ((x :: xs).drop c).length ≤ n := by
        simp only [List.length_drop, List.length_cons]
        simp only [List.length_cons] at hl
        omega
      cases i with
      | zero =>
        simp only [chunksGo, List.length_cons] at hi ⊢
        have hne : chunksGo c n ((x :: xs).drop c) ≠ [] := by
          intro hcon
          rw [hcon] at hi
          simp at hi
        have hdrop : (x :: xs).drop c ≠ [] := by
          intro hcon
          rw [hcon] at hne
          exact hne (by cases n <;> simp [chunksGo])
        have hlt : c < (x :: xs).length := by
          by_contra hge
          exact hdrop (List.drop_eq_nil_of_le (by omega))
        simp only [List.getD_cons_zero, List.length_take]
        omega
      | succ j =>
        simp only [chunksGo, List.length_cons, List.getD_cons_succ] at hi ⊢
        exact ih _ hd j (by omega)

/-- C1: for every URL list of length L and every concurrency limit C > 0,
`crawl_parallel`'s slicing `urls[i : i + C]` for `i in range(0, L, C)`
(modelled by `chunks`) partitions the list into consecutive batches whose
concatenation is the original list in order (so every URL appears in
exactly one batch), the number of batches equals `ceil(L / C) = (L + C - 1) / C`,
every batch is non-empty of size at most C, and every batch except
possibly the last has size exactly C. -/
theorem c1_batching (urls : List String) (c : Nat) (hc : 0 < c) :
    (chunks c urls).flatten = urls
    ∧ (chunks c urls).length = (urls.length + c - 1) / c
    ∧ (∀ b ∈ chunks c urls, b ≠ [] ∧ b.length ≤ c)
    ∧ (∀ i, i + 1 < (chunks c urls).length →
        ((chunks c urls).getD i []).length = c) := by
  refine ⟨?_, ?_, ?_, ?_⟩
  · exact chunksGo_join c hc urls.length urls (Nat.le_refl _)
  · exact chunksGo_length c hc urls.length urls (Nat.le_refl _)
  · exact chunksGo_sizes c hc urls.length urls (Nat.le_refl _)
  · exact chunksGo_full c hc urls.length urls (Nat.le_refl _)

/-- Witness for C1 at a concrete 5-URL list and concurrency limit 2. -/
theorem c1_batching_witness :
    0 < 2
    ∧ ((chunks 2 ["a", "b", "c", "d", "e"]).flatten = ["a", "b", "c", "d", "e"]
      ∧ (chunks 2 ["a", "b", "c", "d", "e"]).length = (5 + 2 - 1) / 2
      ∧ (∀ b ∈ chunks 2 ["a", "b", "c", "d", "e"], b ≠ [] ∧ b.length ≤ 2)
      ∧ (∀ i, i + 1 < (chunks 2 ["a", "b", "c", "d", "e"]).length →
          ((chunks 2 ["a", "b", "c", "d", "e"]).getD i []).length = 2)) :=
  ⟨by decide, c1_batching ["a", "b", "c", "d", "e"] 2 (by decide)⟩

/-- The item loop never touches the memory snapshots, the tracker, the
close counter, or the reading counter. -/
lemma processItems_frame (env : CrawlEnv) :
    ∀ (items : List (String × Outcome)) (st : RunState),
      (processItems env st items).1.stats.memory_stats = st.stats.memory_stats
      ∧ (processItems env st items).1.tracker = st.tracker
      ∧ (processItems env st items).1.closeCount = st.closeCount
      ∧ (processItems env st items).1.readIdx = st.readIdx := by
  intro items
  induction items with
  | nil => intro st; simp [processItems]
  | cons p rest ih =>
    intro st
    obtain ⟨u, o⟩ := p
    cases o with
    | exn ty msg => simpa [processItems] using ih _
    | res flag md =>
      cases flag with
      | false => simpa [processItems] using ih _
      | true =>
        by_cases hm : mdTruthy md = true
        · by_cases hwr : env.writeOk st.writeIdx = true
          · simpa [processItems, hm, hwr] using ih _
          · simp [processItems, hm, hwr]
        · simpa [processItems, hm] using ih _

/-- When every write succeeds the item loop completes without raising. -/
lemma processItems_fault_none (env : CrawlEnv) (hw : writesOk env) :
    ∀ (items : List (String × Outcome)) (st : RunState),
      (processItems env st items).2 = none := by
  intro items
  induction items with
  | nil => intro st; simp [processItems]
  | cons p rest ih =>
    intro st
    obtain ⟨u, o⟩ := p
    cases o with
    | exn ty msg => simpa [processItems] using ih _
    | res flag md =>
      cases flag with
      | false => simpa [processItems] using ih _
      | true =>
        by_cases hm : mdTruthy md = true
        · simpa [processItems, hm, hw st.writeIdx] using ih _
        · simpa [processItems, hm] using ih _

/-- When every write succeeds, the item loop raises `success_count` by the
number of outcomes whose result flag is true. -/
lemma processItems_success (env : CrawlEnv) (hw : writesOk env) :
    ∀ (items : List (String × Outcome)) (st : RunState),
      (processItems env st items).1.stats.success_count
        = st.stats.success_count + (items.map Prod.snd).countP isSuccessRes := by
  intro items
  induction items with
  | nil => intro st; simp [processItems]
  | cons p rest ih =>
    intro st
    obtain ⟨u, o⟩ := p
    cases o with
    | exn ty msg =>
      simp [processItems, ih, List.countP_cons, isSuccessRes]
    | res flag md =>
      cases flag with
      | false => simp [processItems, ih, List.countP_cons, isSuccessRes]
      | true =>
        by_cases hm : mdTruthy md = true
        · simp [processItems, hm, hw st.writeIdx, ih, List.countP_cons,
            isSuccessRes]
          omega
        · simp [processItems, hm, ih, List.countP_cons, isSuccessRes]
          omega

/-- When every write succeeds, the item loop raises `fail_count` by the
number of outcomes that are exceptions or have a false result flag. -/
lemma processItems_fail (env : CrawlEnv) (hw : writesOk env) :
    ∀ (items : List (String × Outcome)) (st : RunState),
      (processItems env st items).1.stats.fail_count
        = st.stats.fail_count
          + (items.map Prod.snd).countP (fun o => !isSuccessRes o) := by
  intro items
  induction items with
  | nil => intro st; simp [processItems]
  | cons p rest ih =>
    intro st
    obtain ⟨u, o⟩ := p
    cases o with
    | exn ty msg =>
      simp [processItems, ih, List.countP_cons, isSuccessRes]
      omega
    | res flag md =>
      cases flag with
      | false =>
        simp [processItems, ih, List.countP_cons, isSuccessRes]
        omega
      | true =>
        by_cases hm : mdTruthy md = true
        · simp [processItems, hm, hw st.writeIdx, ih, List.countP_cons,
            isSuccessRes]
        · simp [processItems, hm, ih, List.countP_cons, isSuccessRes]

/-- When every write succeeds, the item loop folds exactly the exception
outcomes into the error histogram, in order. -/
lemma processItems_errors (env : CrawlEnv) (hw : writesOk env) :
    ∀ (items : List (String × Outcome)) (st : RunState),
      (processItems env st items).1.stats.errors
        = foldErrs st.stats.errors (items.map Prod.snd) := by
  intro items
  induction items with
  | nil => intro st; simp [processItems, foldErrs]
  | cons p rest ih =>
    intro st
    obtain ⟨u, o⟩ := p
    cases o with
    | exn ty msg => simp [processItems, ih, foldErrs]
    | res flag md =>
      cases flag with
      | false => simp [processItems, ih, foldErrs]
      | true =>
        by_cases hm : mdTruthy md = true
        · simp [processItems, hm, hw st.writeIdx, ih, foldErrs]
        · simp [processItems, hm, ih, foldErrs]

/-- When every write succeeds, the item loop appends exactly the page
artifacts of `pagesSpec`, numbered from the current success ordinal. -/
lemma processItems_writes (env : CrawlEnv) (hw : writesOk env) :
    ∀ (items : List (String × Outcome)) (st : RunState),
      (processItems env st items).1.writes
        = st.writes ++ pagesSpec st.stats.success_count (items.map Prod.snd) := by
  intro items
  induction items with
  | nil => intro st; simp [processItems, pagesSpec]
  | cons p rest ih =>
    intro st
    obtain ⟨u, o⟩ := p
    cases o with
    | exn ty msg => simp [processItems, ih, pagesSpec]
    | res flag md =>
      cases flag with
      | false => simp [processItems, ih, pagesSpec]
      | true =>
        by_cases hm : mdTruthy md = true
        · simp [processItems, hm, hw st.writeIdx, ih, pagesSpec]
        · simp [processItems, hm, ih, pagesSpec]

/-- Folding the histogram over a concatenation composes. -/
lemma foldErrs_append (a : List Outcome) :
    ∀ (e : List (String × Nat)) (b : List Outcome),
      foldErrs e (a ++ b) = foldErrs (foldErrs e a) b := by
  induction a with
  | nil => intro e b; simp [foldErrs]
  | cons o rest ih =>
    intro e b
    cases o with
    | exn ty msg => simp [foldErrs, ih]
    | res flag md => simp [foldErrs, ih]

/-- The page artifacts of a concatenation: the second part is numbered
from the ordinal reached after the first part's successes. -/
lemma pagesSpec_append (a : List Outcome) :
    ∀ (n : Nat) (b : List Outcome),
      pagesSpec n (a ++ b)
        = pagesSpec n a ++ pagesSpec (n + a.countP isSuccessRes) b := by
  induction a with
  | nil => intro n b; simp [pagesSpec]
  | cons o rest ih =>
    intro n b
    cases o with
    | exn ty msg => simp [pagesSpec, ih, List.countP_cons, isSuccessRes]
    | res flag md =>
      cases flag with
      | false => simp [pagesSpec, ih, List.countP_cons, isSuccessRes]
      | true =>
        have harith : n + 1 + List.countP isSuccessRes rest
            = n + (List.countP isSuccessRes rest + 1) := by omega
        by_cases hm : mdTruthy md = true
        · simp [pagesSpec, hm, ih, List.countP_cons, isSuccessRes, harith]
        · simp [pagesSpec, hm, ih, List.countP_cons, isSuccessRes, harith]

/-- The batch loop never touches the close counter, whatever the
environment does. -/
lemma runBatchesGo_closeCount (env : CrawlEnv) (c : Nat) :
    ∀ (fuel : Nat) (urls : List String) (outs : List Outcome) (st : RunState),
      (runBatchesGo env c fuel urls outs st).1.closeCount = st.closeCount := by
  intro fuel
  induction fuel with
  | zero => intro urls outs st; cases urls <;> simp [runBatchesGo]
  | succ n ih =>
    intro urls outs st
    cases urls with
    | nil => simp [runBatchesGo]
    | cons u us =>
      simp only [runBatchesGo]
      split
      · rename_i st2 f hp
        have hframe := (processItems_frame env
          (((u :: us).take c).zip (outs.take c)) (snapStep env st)).2.2.1
        rw [hp] at hframe
        simpa [snapStep] using hframe
      · rename_i st2 hp
        have hframe := (processItems_frame env
          (((u :: us).take c).zip (outs.take c)) (snapStep env st)).2.2.1
        rw [hp] at hframe
        rw [ih ((u :: us).drop c) (outs.drop c) st2, hframe]
        simp [snapStep]

/-- Master accumulation lemma for the batch loop when every write
succeeds: no exception is raised, `success_count` collects the outcomes
with a true result flag, `fail_count` collects all the others, the error
histogram folds the exception outcomes in order, and the artifact writes
extend by the pages of `pagesSpec` numbered from the current success
ordinal. -/
lemma runBatchesGo_ok (env : CrawlEnv) (hw : writesOk env) (c : Nat)
    (hc : 0 < c) :
    ∀ (fuel : Nat) (urls : List String) (outs : List Outcome) (st : RunState),
      urls.length ≤ fuel → outs.length = urls.length →
      (runBatchesGo env c fuel urls outs st).2 = none
      ∧ (runBatchesGo env c fuel urls outs st).1.stats.success_count
          = st.stats.success_count + outs.countP isSuccessRes
      ∧ (runBatchesGo env c fuel urls outs st).1.stats.fail_count
          = st.stats.fail_count + outs.countP (fun o => !isSuccessRes o)
      ∧ (runBatchesGo env c fuel urls outs st).1.stats.errors
          = foldErrs st.stats.errors outs
      ∧ (runBatchesGo env c fuel urls outs st).1.writes
          = st.writes ++ pagesSpec st.stats.success_count outs := by
  intro fuel
  induction fuel with
  | zero =>
    intro urls outs st hl ho
    have hu : urls = [] := by
      cases urls with
      | nil => rfl
      | cons x xs => simp at hl
    subst hu
    have hout : outs = [] := List.length_eq_zero.mp (by simpa using ho)
    subst hout
    simp [runBatchesGo, pagesSpec, foldErrs]
  | succ n ih =>
    intro urls outs st hl ho
    cases urls with
    | nil =>
      have hout : outs = [] := List.length_eq_zero.mp (by simpa using ho)
      subst hout
      simp [runBatchesGo, pagesSpec, foldErrs]
    | cons u us =>
      simp only [List.length_cons] at hl ho
      have hmap : (((u :: us).take c).zip (outs.take c)).map Prod.snd
          = outs.take c := by
        apply List.map_snd_zip
        simp only [List.length_take, List.length_cons]
        omega
      have hl2 : ((u :: us).drop c).length ≤ n := by
        simp only [List.length_drop, List.length_cons]
        omega
      have ho2 : (outs.drop c).length = ((u :: us).drop c).length := by
        simp only [List.length_drop, List.length_cons]
        omega
      have hcp : (outs.take c).countP isSuccessRes
          + (outs.drop c).countP isSuccessRes = outs.countP isSuccessRes := by
        rw [← List.countP_append, List.take_append_drop]
      have hcf : (outs.take c).countP (fun o => !isSuccessRes o)
          + (outs.drop c).countP (fun o => !isSuccessRes o)
          = outs.countP (fun o => !isSuccessRes o) := by
        rw [← List.countP_append, List.take_append_drop]
      have herr2 : foldErrs (foldErrs st.stats.errors (outs.take c))
          (outs.drop c) = foldErrs st.stats.errors outs := by
        rw [← foldErrs_append, List.take_append_drop]
      have hpg : pagesSpec st.stats.success_count (outs.take c)
          ++ pagesSpec (st.stats.success_count
                + (outs.take c).countP isSuccessRes) (outs.drop c)
          = pagesSpec st.stats.success_count outs := by
        rw [← pagesSpec_append, List.take_append_drop]
      simp only [runBatchesGo]
      split
      · rename_i st2 f hp
        have hfn := processItems_fault_none env hw
          (((u :: us).take c).zip (outs.take c)) (snapStep env st)
        rw [hp] at hfn
        simp at hfn
      · rename_i st2 hp
        have hsucc := processItems_success env hw
          (((u :: us).take c).zip (outs.take c)) (snapStep env st)
        have hfail := processItems_fail env hw
          (((u :: us).take c).zip (outs.take c)) (snapStep env st)
        have herr := processItems_errors env hw
          (((u :: us).take c).zip (outs.take c)) (snapStep env st)
        have hwrt := processItems_writes env hw
          (((u :: us).take c).zip (outs.take c)) (snapStep env st)
        rw [hp, hmap] at hsucc hfail herr hwrt
        simp only [snapStep] at hsucc hfail herr hwrt
        obtain ⟨ih1, ih2, ih3, ih4, ih5⟩ :=
          ih ((u :: us).drop c) (outs.drop c) st2 hl2 ho2
        refine ⟨ih1, ?_, ?_, ?_, ?_⟩
        · rw [ih2, hsucc]
          omega
        · rw [ih3, hfail]
          omega
        · rw [ih4, herr, herr2]
        · rw [ih5, hwrt, hsucc, List.append_assoc, hpg]

/-- An exception outcome never takes the success branch. -/
@[simp] lemma isSuccessRes_exn (ty m : String) :
    isSuccessRes (.exn ty m) = false := rfl

/-- A result outcome takes the success branch exactly per its flag. -/
@[simp] lemma isSuccessRes_res (b : Bool) (md : Option String) :
    isSuccessRes (.res b md) = b := by cases b <;> rfl

/-- Each outcome is counted on exactly one side of the success/fail
split. -/
lemma countP_split (l : List Outcome) :
    l.countP isSuccessRes + l.countP (fun o => !isSuccessRes o) = l.length := by
  induction l with
  | nil => simp
  | cons o rest ih =>
    simp only [List.countP_cons, List.length_cons]
    cases o with
    | exn ty msg => simp; omega
    | res flag md => cases flag <;> simp <;> omega

/-- When engine close and the summary write succeed, finalization keeps
the counters and histogram, bumps the close counter once, appends exactly
one final snapshot, appends exactly the summary artifact, and lets the
in-flight exception (if any) resume. -/
lemma finalize_counts (env : CrawlEnv) (total : Nat) (st : RunState)
    (inflight : Option Fault) (hclose : env.closeOk = true)
    (hwV : env.writeOk st.writeIdx = true) :
    (finalize env total st inflight).2 = inflight
    ∧ (finalize env total st inflight).1.stats.success_count
        = st.stats.success_count
    ∧ (finalize env total st inflight).1.stats.fail_count
        = st.stats.fail_count
    ∧ (finalize env total st inflight).1.stats.errors = st.stats.errors
    ∧ (finalize env total st inflight).1.closeCount = st.closeCount + 1
    ∧ (finalize env total st inflight).1.stats.memory_stats
        = st.stats.memory_stats
          ++ [(st.tracker.log_memory (env.readings st.readIdx)).2]
    ∧ (finalize env total st inflight).1.writes
        = st.writes ++ [("summary.txt",
            renderSummary total
              { st.stats with memory_stats := st.stats.memory_stats
                  ++ [(st.tracker.log_memory (env.readings st.readIdx)).2] }
              (st.tracker.log_memory (env.readings st.readIdx)).2)] := by
  simp [finalize, snapStep, hclose, hwV]

/-- C3: for every completed run of `crawl_parallel` (engine start, engine
close and all artifact writes succeed, concurrency limit positive, one
gathered outcome per URL) no exception escapes and the returned stats
satisfy `success_count + fail_count = len(urls)`: each URL's outcome
increments exactly one of the two counters — `success_count` exactly for
results with a true success flag, `fail_count` for exception outcomes and
unsuccessful results.  An empty URL list completes with both counters
zero. -/
theorem c3_counter_invariant (env : CrawlEnv) (urls : List String)
    (outs : List Outcome) (c : Nat) (hstart : env.startOk = true)
    (hclose : env.closeOk = true) (hw : writesOk env) (hc : 0 < c)
    (hlen : outs.length = urls.length) :
    (crawl_parallel env urls outs c).2 = none
    ∧ (crawl_parallel env urls outs c).1.stats.success_count
        + (crawl_parallel env urls outs c).1.stats.fail_count = urls.length
    ∧ (crawl_parallel env urls outs c).1.stats.success_count
        = outs.countP isSuccessRes
    ∧ (crawl_parallel env urls outs c).1.stats.fail_count
        = outs.countP (fun o => !isSuccessRes o) := by
  have h0 : ¬ c = 0 := by omega
  have hcp : crawl_parallel env urls outs c
      = finalize env urls.length
          (runBatchesGo env c urls.length urls outs initState).1
          (runBatchesGo env c urls.length urls outs initState).2 := by
    simp [crawl_parallel, tryBody, hstart, h0]
  obtain ⟨hr1, hr2, hr3, hr4, hr5⟩ :=
    runBatchesGo_ok env hw c hc urls.length urls outs initState
      (Nat.le_refl _) hlen
  obtain ⟨hf1, hf2, hf3, hf4, hf5, hf6, hf7⟩ :=
    finalize_counts env urls.length
      (runBatchesGo env c urls.length urls outs initState).1
      (runBatchesGo env c urls.length urls outs initState).2 hclose
      (hw _)
  rw [hcp]
  refine ⟨?_, ?_, ?_, ?_⟩
  · rw [hf1, hr1]
  · rw [hf2, hf3, hr2, hr3]
    have := countP_split outs
    simp only [initState, initStats]
    omega
  · rw [hf2, hr2]
    simp [initState, initStats]
  · rw [hf3, hr3]
    simp [initState, initStats]

/-- Witness for C3: a three-URL run with one success, one exception and
one unsuccessful result. -/
theorem c3_counter_invariant_witness :
    envAllOk.startOk = true ∧ envAllOk.closeOk = true ∧ writesOk envAllOk
    ∧ 0 < 2
    ∧ ([Outcome.res true (some "x"), Outcome.exn "Timeout" "m",
        Outcome.res false none] : List Outcome).length
        = (["a", "b", "c"] : List String).length
    ∧ ((crawl_parallel envAllOk ["a", "b", "c"]
          [Outcome.res true (some "x"), Outcome.exn "Timeout" "m",
            Outcome.res false none] 2).2 = none
      ∧ (crawl_parallel envAllOk ["a", "b", "c"]
          [Outcome.res true (some "x"), Outcome.exn "Timeout" "m",
            Outcome.res false none] 2).1.stats.success_count
          + (crawl_parallel envAllOk ["a", "b", "c"]
              [Outcome.res true (some "x"), Outcome.exn "Timeout" "m",
                Outcome.res false none] 2).1.stats.fail_count
          = (["a", "b", "c"] : List String).length
      ∧ (crawl_parallel envAllOk ["a", "b", "c"]
          [Outcome.res true (some "x"), Outcome.exn "Timeout" "m",
            Outcome.res false none] 2).1.stats.success_count
          = ([Outcome.res true (some "x"), Outcome.exn "Timeout" "m",
              Outcome.res false none] : List Outcome).countP isSuccessRes
      ∧ (crawl_parallel envAllOk ["a", "b", "c"]
          [Outcome.res true (some "x"), Outcome.exn "Timeout" "m",
            Outcome.res false none] 2).1.stats.fail_count
          = ([Outcome.res true (some "x"), Outcome.exn "Timeout" "m",
              Outcome.res false none] : List Outcome).countP
              (fun o => !isSuccessRes o)) :=
  ⟨rfl, rfl, fun _ => rfl, by decide, by decide,
    c3_counter_invariant envAllOk ["a", "b", "c"]
      [Outcome.res true (some "x"), Outcome.exn "Timeout" "m",
        Outcome.res false none] 2 rfl rfl (fun _ => rfl) (by decide)
      (by decide)⟩

/-- Folding outcomes with no exceptions leaves the histogram unchanged. -/
lemma foldErrs_nonexn :
    ∀ (l : List Outcome) (e : List (String × Nat)),
      (∀ o ∈ l, isExn o = false) → foldErrs e l = e := by
  intro l
  induction l with
  | nil => intro e _; simp [foldErrs]
  | cons o rest ih =>
    intro e h
    cases o with
    | exn ty msg =>
      have := h (.exn ty msg) (List.mem_cons_self _ _)
      simp [isExn] at this
    | res flag md =>
      simp only [foldErrs]
      exact ih e (fun o ho => h o (List.mem_cons_of_mem _ ho))

/-- Bumping one histogram key raises the total occurrence count by one. -/
lemma errTotal_incr (e : List (String × Nat)) (ty : String) :
    errTotal (incrErr e ty) = errTotal e + 1 := by
  induction e with
  | nil => simp [incrErr, errTotal]
  | cons kv rest ih =>
    obtain ⟨k0, v⟩ := kv
    by_cases hk : k0 = ty
    · simp [incrErr, hk, errTotal]
      omega
    · simp only [incrErr, if_neg hk]
      simp only [errTotal, List.map_cons, List.sum_cons] at ih ⊢
      omega

/-- Bumping one histogram key raises that key's count by one. -/
lemma errCount_incr (e : List (String × Nat)) (ty : String) :
    errCount (incrErr e ty) ty = errCount e ty + 1 := by
  induction e with
  | nil => simp [incrErr, errCount]
  | cons kv rest ih =>
    obtain ⟨k0, v⟩ := kv
    by_cases hk : k0 = ty
    · simp [incrErr, hk, errCount]
    · simp only [incrErr, if_neg hk, errCount]
      exact ih

/-- C2: in a batch whose items are gathered positionally (the model's
`zip` pairs each outcome with its originating URL, as
`zip(batch, results)` does after `asyncio.gather(..., return_exceptions=True)`),
if exactly one item raised an exception and every sibling produced a
result object, the loop completes without aborting, every one of the N
items still lands in exactly one counter (the counters' sum grows by the
full batch length, so the failure suppresses no sibling), and the error
histogram records exactly one new occurrence, under the failing item's
type name. -/
theorem c2_failure_isolation (env : CrawlEnv) (st : RunState)
    (pre post : List (String × Outcome)) (u ty msg : String)
    (hw : writesOk env)
    (hpre : ∀ p ∈ pre, isExn p.2 = false)
    (hpost : ∀ p ∈ post, isExn p.2 = false) :
    (processItems env st (pre ++ (u, Outcome.exn ty msg) :: post)).2 = none
    ∧ (processItems env st
          (pre ++ (u, Outcome.exn ty msg) :: post)).1.stats.success_count
        + (processItems env st
            (pre ++ (u, Outcome.exn ty msg) :: post)).1.stats.fail_count
        = st.stats.success_count + st.stats.fail_count
          + (pre ++ (u, Outcome.exn ty msg) :: post).length
    ∧ errTotal (processItems env st
          (pre ++ (u, Outcome.exn ty msg) :: post)).1.stats.errors
        = errTotal st.stats.errors + 1
    ∧ errCount (processItems env st
          (pre ++ (u, Outcome.exn ty msg) :: post)).1.stats.errors ty
        = errCount st.stats.errors ty + 1 := by
  have hmapsplit : (pre ++ (u, Outcome.exn ty msg) :: post).map Prod.snd
      = pre.map Prod.snd ++ Outcome.exn ty msg :: post.map Prod.snd := by
    simp
  have hprem : ∀ o ∈ pre.map Prod.snd, isExn o = false := by
    intro o ho
    obtain ⟨p, hp, hpo⟩ := List.mem_map.mp ho
    exact hpo ▸ hpre p hp
  have hpostm : ∀ o ∈ post.map Prod.snd, isExn o = false := by
    intro o ho
    obtain ⟨p, hp, hpo⟩ := List.mem_map.mp ho
    exact hpo ▸ hpost p hp
  have herrval : (processItems env st
      (pre ++ (u, Outcome.exn ty msg) :: post)).1.stats.errors
      = incrErr st.stats.errors ty := by
    rw [processItems_errors env hw _ st, hmapsplit, foldErrs_append,
      foldErrs_nonexn _ _ hprem]
    show foldErrs (incrErr st.stats.errors ty) (post.map Prod.snd)
      = incrErr st.stats.errors ty
    exact foldErrs_nonexn _ _ hpostm
  refine ⟨processItems_fault_none env hw _ st, ?_, ?_, ?_⟩
  · rw [processItems_success env hw _ st, processItems_fail env hw _ st]
    have hsplit := countP_split ((pre ++ (u, Outcome.exn ty msg) :: post).map
      Prod.snd)
    rw [List.length_map] at hsplit
    omega
  · rw [herrval, errTotal_incr]
  · rw [herrval, errCount_incr]

/-- Witness for C2: a batch of three items whose middle item raises. -/
theorem c2_failure_isolation_witness :
    writesOk envAllOk
    ∧ (∀ p ∈ [("a", Outcome.res true (some "x"))], isExn p.2 = false)
    ∧ (∀ p ∈ [("c", Outcome.res false none)], isExn p.2 = false)
    ∧ ((processItems envAllOk initState
          ([("a", Outcome.res true (some "x"))]
            ++ ("b", Outcome.exn "Timeout" "m")
              :: [("c", Outcome.res false none)])).2 = none
      ∧ (processItems envAllOk initState
            ([("a", Outcome.res true (some "x"))]
              ++ ("b", Outcome.exn "Timeout" "m")
                :: [("c", Outcome.res false none)])).1.stats.success_count
          + (processItems envAllOk initState
              ([("a", Outcome.res true (some "x"))]
                ++ ("b", Outcome.exn "Timeout" "m")
                  :: [("c", Outcome.res false none)])).1.stats.fail_count
          = initState.stats.success_count + initState.stats.fail_count
            + ([("a", Outcome.res true (some "x"))]
                ++ ("b", Outcome.exn "Timeout" "m")
                  :: [("c", Outcome.res false none)]).length
      ∧ errTotal (processItems envAllOk initState
            ([("a", Outcome.res true (some "x"))]
              ++ ("b", Outcome.exn "Timeout" "m")
                :: [("c", Outcome.res false none)])).1.stats.errors
          = errTotal initState.stats.errors + 1
      ∧ errCount (processItems envAllOk initState
            ([("a", Outcome.res true (some "x"))]
              ++ ("b", Outcome.exn "Timeout" "m")
                :: [("c", Outcome.res false none)])).1.stats.errors "Timeout"
          = errCount initState.stats.errors "Timeout" + 1) :=
  ⟨fun _ => rfl, by decide, by decide,
    c2_failure_isolation envAllOk initState
      [("a", Outcome.res true (some "x"))] [("c", Outcome.res false none)]
      "b" "Timeout" "m" (fun _ => rfl) (by decide) (by decide)⟩

/-- Counterexample for C5: a fetch that raises no exception, reports
`success = True` and carries empty/missing content (`result.markdown` is
`None`) is counted in `success_count`, not in `fail_count`, by the source
(src/multi_url.py lines 125-130) — the claim demands it be counted as a
failure.  Concretely, one such URL yields `success_count = 1` and
`fail_count = 0` in a completed run. -/
theorem c5_counterexample :
    (crawl_parallel envAllOk ["u"] [Outcome.res true none] 3).2 = none
    ∧ (crawl_parallel envAllOk ["u"]
        [Outcome.res true none] 3).1.stats.success_count = 1
    ∧ (crawl_parallel envAllOk ["u"]
        [Outcome.res true none] 3).1.stats.fail_count = 0
    ∧ ¬ (crawl_parallel envAllOk ["u"]
        [Outcome.res true none] 3).1.stats.fail_count = 1 := by
  decide

/-- C5 (amended): the classification is keyed on the result's success
flag, not on content emptiness.  An engine-raised exception is a Failure:
`fail_count` is bumped and the exception's type name is recorded once in
the error histogram.  A result with success flag true is counted in
`success_count` whatever its content; an artifact is written exactly when
the content is non-empty.  A result with success flag false is counted in
`fail_count` and leaves the error histogram untouched (no error kind is
ever recorded for it). -/
theorem c5_classification (env : CrawlEnv) (st : RunState)
    (u ty msg : String) (md : Option String)
    (hwr : env.writeOk st.writeIdx = true) :
    ((processItems env st [(u, Outcome.exn ty msg)]).1.stats.fail_count
        = st.stats.fail_count + 1
      ∧ (processItems env st [(u, Outcome.exn ty msg)]).1.stats.success_count
          = st.stats.success_count
      ∧ (processItems env st [(u, Outcome.exn ty msg)]).1.stats.errors
          = incrErr st.stats.errors ty
      ∧ (processItems env st [(u, Outcome.exn ty msg)]).1.writes = st.writes)
    ∧ ((processItems env st [(u, Outcome.res true md)]).1.stats.success_count
        = st.stats.success_count + 1
      ∧ (processItems env st [(u, Outcome.res true md)]).1.stats.fail_count
          = st.stats.fail_count
      ∧ (processItems env st [(u, Outcome.res true md)]).1.stats.errors
          = st.stats.errors
      ∧ (processItems env st [(u, Outcome.res true md)]).1.writes
          = st.writes ++ (if mdTruthy md then
              [("page_" ++ toString (st.stats.success_count + 1) ++ ".md",
                md.getD "")]
            else []))
    ∧ ((processItems env st [(u, Outcome.res false md)]).1.stats.fail_count
        = st.stats.fail_count + 1
      ∧ (processItems env st [(u, Outcome.res false md)]).1.stats.success_count
          = st.stats.success_count
      ∧ (processItems env st [(u, Outcome.res false md)]).1.stats.errors
          = st.stats.errors) := by
  by_cases hm : mdTruthy md = true <;> simp [processItems, hm, hwr]

/-- Witness for C5 (amended) at a concrete state and item. -/
theorem c5_classification_witness :
    envAllOk.writeOk initState.writeIdx = true
    ∧ (((processItems envAllOk initState
          [("u", Outcome.exn "Timeout" "m")]).1.stats.fail_count
        = initState.stats.fail_count + 1
      ∧ (processItems envAllOk initState
          [("u", Outcome.exn "Timeout" "m")]).1.stats.success_count
          = initState.stats.success_count
      ∧ (processItems envAllOk initState
          [("u", Outcome.exn "Timeout" "m")]).1.stats.errors
          = incrErr initState.stats.errors "Timeout"
      ∧ (processItems envAllOk initState
          [("u", Outcome.exn "Timeout" "m")]).1.writes = initState.writes)
    ∧ ((processItems envAllOk initState
          [("u", Outcome.res true (some "x"))]).1.stats.success_count
        = initState.stats.success_count + 1
      ∧ (processItems envAllOk initState
          [("u", Outcome.res true (some "x"))]).1.stats.fail_count
          = initState.stats.fail_count
      ∧ (processItems envAllOk initState
          [("u", Outcome.res true (some "x"))]).1.stats.errors
          = initState.stats.errors
      ∧ (processItems envAllOk initState
          [("u", Outcome.res true (some "x"))]).1.writes
          = initState.writes ++ (if mdTruthy (some "x") then
              [("page_" ++ toString (initState.stats.success_count + 1)
                  ++ ".md", (some "x").getD "")]
            else []))
    ∧ ((processItems envAllOk initState
          [("u", Outcome.res false (some "x"))]).1.stats.fail_count
        = initState.stats.fail_count + 1
      ∧ (processItems envAllOk initState
          [("u", Outcome.res false (some "x"))]).1.stats.success_count
          = initState.stats.success_count
      ∧ (processItems envAllOk initState
          [("u", Outcome.res false (some "x"))]).1.stats.errors
          = initState.stats.errors)) :=
  ⟨rfl, c5_classification envAllOk initState "u" "Timeout" "m" (some "x") rfl⟩

/-- Counterexample for C7: in a completed run with one URL whose result
has `success = True` but `result.markdown = None`, the item is a
successful item (`success_count = 1`) yet no `page_*.md` artifact is
written at all — the output collaborator is not called once per
successful item. -/
theorem c7_counterexample :
    (crawl_parallel envAllOk ["u"] [Outcome.res true none] 3).1.stats.success_count = 1
    ∧ (crawl_parallel envAllOk ["u"] [Outcome.res true none] 3).1.writes.map
        Prod.fst = ["summary.txt"]
    ∧ (crawl_parallel envAllOk ["u"] [Outcome.res true none] 3).2 = none := by
  decide

/-- C7 (amended): in every completed run, each item with a true success
flag raises the success ordinal, and exactly those among them whose
content is non-empty produce exactly one artifact each, named
`page_{n}.md` with `n` the success ordinal at that point (the counter is
incremented before naming), not the URL's index; the writes of the run
are exactly those pages in order followed by exactly one final
`summary.txt`. -/
theorem c7_artifact_naming (env : CrawlEnv) (urls : List String)
    (outs : List Outcome) (c : Nat) (hstart : env.startOk = true)
    (hclose : env.closeOk = true) (hw : writesOk env) (hc : 0 < c)
    (hlen : outs.length = urls.length) :
    (crawl_parallel env urls outs c).1.writes.dropLast = pagesSpec 0 outs
    ∧ (crawl_parallel env urls outs c).1.writes.map Prod.fst
        = (pagesSpec 0 outs).map Prod.fst ++ ["summary.txt"] := by
  have h0 : ¬ c = 0 := by omega
  have hcp : crawl_parallel env urls outs c
      = finalize env urls.length
          (runBatchesGo env c urls.length urls outs initState).1
          (runBatchesGo env c urls.length urls outs initState).2 := by
    simp [crawl_parallel, tryBody, hstart, h0]
  obtain ⟨hr1, hr2, hr3, hr4, hr5⟩ :=
    runBatchesGo_ok env hw c hc urls.length urls outs initState
      (Nat.le_refl _) hlen
  obtain ⟨hf1, hf2, hf3, hf4, hf5, hf6, hf7⟩ :=
    finalize_counts env urls.length
      (runBatchesGo env c urls.length urls outs initState).1
      (runBatchesGo env c urls.length urls outs initState).2 hclose
      (hw _)
  have hwrites0 : (runBatchesGo env c urls.length urls outs initState).1.writes
      = pagesSpec 0 outs := by
    rw [hr5]
    simp [initState, initStats]
  rw [hcp]
  constructor
  · rw [hf7, hwrites0, List.dropLast_concat]
  · rw [hf7, hwrites0, List.map_append]
    rfl

/-- Witness for C7 (amended): two successes, the first with empty content
— the only page written is `page_2.md` (success ordinal two). -/
theorem c7_artifact_naming_witness :
    envAllOk.startOk = true ∧ envAllOk.closeOk = true ∧ writesOk envAllOk
    ∧ 0 < 2
    ∧ ([Outcome.res true none, Outcome.res true (some "hi")]
        : List Outcome).length = (["a", "b"] : List String).length
    ∧ ((crawl_parallel envAllOk ["a", "b"]
          [Outcome.res true none, Outcome.res true (some "hi")]
          2).1.writes.dropLast
        = pagesSpec 0 [Outcome.res true none, Outcome.res true (some "hi")]
      ∧ (crawl_parallel envAllOk ["a", "b"]
          [Outcome.res true none, Outcome.res true (some "hi")]
          2).1.writes.map Prod.fst
        = (pagesSpec 0 [Outcome.res true none,
            Outcome.res true (some "hi")]).map Prod.fst ++ ["summary.txt"]) :=
  ⟨rfl, rfl, fun _ => rfl, by decide, by decide,
    c7_artifact_naming envAllOk ["a", "b"]
      [Outcome.res true none, Outcome.res true (some "hi")] 2 rfl rfl
      (fun _ => rfl) (by decide) (by decide)⟩

/-- A concrete environment in which only the first artifact write
(the first page) fails. -/
def envPageFail : CrawlEnv :=
  ⟨true, true, fun i => !(i == 0), fun _ => ⟨0, 0, "t"⟩⟩

/-- The try body never touches the close counter. -/
lemma tryBody_closeCount (env : CrawlEnv) (urls : List String)
    (outs : List Outcome) (c : Nat) :
    (tryBody env urls outs c).1.closeCount = 0 := by
  by_cases h0 : c = 0
  · simp [tryBody, h0, initState]
  · simp only [tryBody, if_neg h0]
    rw [runBatchesGo_closeCount]
    simp [initState]

/-- Finalization invokes `crawler.close()` exactly once on every path. -/
lemma finalize_closeCount (env : CrawlEnv) (total : Nat) (st : RunState)
    (inflight : Option Fault) :
    (finalize env total st inflight).1.closeCount = st.closeCount + 1 := by
  by_cases hc : env.closeOk = true
  · by_cases hw2 : env.writeOk st.writeIdx = true
    · simp [finalize, snapStep, hc, hw2]
    · simp only [Bool.not_eq_true] at hw2
      simp [finalize, snapStep, hc, hw2]
  · simp only [Bool.not_eq_true] at hc
    simp [finalize, hc]

/-- When `crawler.close()` raises, finalization stops there: its failure
is what propagates, and neither the final snapshot nor the summary write
happens. -/
lemma finalize_closeFail (env : CrawlEnv) (total : Nat) (st : RunState)
    (inflight : Option Fault) (hc : env.closeOk = false) :
    finalize env total st inflight
      = ({ st with closeCount := st.closeCount + 1 },
          some Fault.closeFailure) := by
  simp [finalize, hc]

/-- When `crawler.close()` succeeds, finalization appends exactly one
final snapshot, taken from the tracker as it stood, even if the summary
write then fails. -/
lemma finalize_memory (env : CrawlEnv) (total : Nat) (st : RunState)
    (inflight : Option Fault) (hc : env.closeOk = true) :
    (finalize env total st inflight).1.stats.memory_stats
      = st.stats.memory_stats
        ++ [(st.tracker.log_memory (env.readings st.readIdx)).2] := by
  by_cases hw2 : env.writeOk st.writeIdx = true
  · simp [finalize, snapStep, hc, hw2]
  · simp only [Bool.not_eq_true] at hw2
    simp [finalize, snapStep, hc, hw2]

/-- Counterexample for C4: a run in which engine start succeeds but
engine close fails invokes close once, yet no final resource snapshot is
appended after the batches (only the one pre-batch snapshot exists) —
contradicting the claim that a final snapshot is taken and appended on
every exit path of a run whose start succeeded. -/
theorem c4_counterexample :
    envCloseFail.startOk = true
    ∧ (crawl_parallel envCloseFail ["u"]
        [Outcome.res true (some "x")] 3).1.closeCount = 1
    ∧ (crawl_parallel envCloseFail ["u"]
        [Outcome.res true (some "x")] 3).1.stats.memory_stats.length = 1
    ∧ (crawl_parallel envCloseFail ["u"]
        [Outcome.res true (some "x")] 3).2 = some Fault.closeFailure := by
  decide

/-- C4 (amended): whenever engine start succeeds, `crawler.close()` is
invoked exactly once on every exit path of `crawl_parallel` — including
runs in which an item raises or an artifact write raises mid-run — and
the final resource snapshot is taken and appended whenever the close
call itself succeeds; whenever engine start fails, close is never invoked
and the start failure propagates to the caller as the run's fatal
outcome. -/
theorem c4_close_once (env : CrawlEnv) (urls : List String)
    (outs : List Outcome) (c : Nat) :
    (crawl_parallel env urls outs c).1.closeCount
        = (if env.startOk then 1 else 0)
    ∧ (env.startOk = true → env.closeOk = true →
        (crawl_parallel env urls outs c).1.stats.memory_stats
          = (tryBody env urls outs c).1.stats.memory_stats
            ++ [((tryBody env urls outs c).1.tracker.log_memory
                  (env.readings (tryBody env urls outs c).1.readIdx)).2])
    ∧ (env.startOk = false →
        (crawl_parallel env urls outs c).2 = some Fault.startFailure) := by
  refine ⟨?_, ?_, ?_⟩
  · by_cases hs : env.startOk = true
    · simp only [crawl_parallel, hs, if_true]
      rw [finalize_closeCount, tryBody_closeCount]
    · simp only [Bool.not_eq_true] at hs
      simp [crawl_parallel, hs, initState]
  · intro hs hc
    simp only [crawl_parallel, hs, if_true]
    exact finalize_memory env urls.length _ _ hc
  · intro hs
    simp [crawl_parallel, hs]

/-- Witness for C4 (amended): an all-succeeding run closes once and gains
the final snapshot; a failed engine start never closes and surfaces the
start failure. -/
theorem c4_close_once_witness :
    (crawl_parallel envAllOk ["u"] [Outcome.res true (some "x")] 3).1.closeCount = 1
    ∧ (crawl_parallel envAllOk ["u"]
        [Outcome.res true (some "x")] 3).1.stats.memory_stats
        = (tryBody envAllOk ["u"] [Outcome.res true (some "x")] 3).1.stats.memory_stats
          ++ [((tryBody envAllOk ["u"]
                  [Outcome.res true (some "x")] 3).1.tracker.log_memory
                (envAllOk.readings (tryBody envAllOk ["u"]
                  [Outcome.res true (some "x")] 3).1.readIdx)).2]
    ∧ (crawl_parallel envStartFail ["u"] [Outcome.res true (some "x")] 3).1.closeCount = 0
    ∧ (crawl_parallel envStartFail ["u"]
        [Outcome.res true (some "x")] 3).2 = some Fault.startFailure :=
  ⟨(c4_close_once envAllOk ["u"] [Outcome.res true (some "x")] 3).1,
    (c4_close_once envAllOk ["u"] [Outcome.res true (some "x")] 3).2.1 rfl rfl,
    (c4_close_once envStartFail ["u"] [Outcome.res true (some "x")] 3).1,
    (c4_close_once envStartFail ["u"]
      [Outcome.res true (some "x")] 3).2.2 rfl⟩

/-- Counterexample for C6: in a run whose try body raises (the page write
fails, so `Fault.writeFailure "page_1.md"` is in flight) and whose
`crawler.close()` also fails, the caller sees the close failure instead
of the in-flight fatal error (masking), and neither the final snapshot
nor the summary is produced — against the claim that a close failure is
logged, does not mask the in-flight error, and lets the snapshot and
summary steps still occur. -/
theorem c6_counterexample :
    (tryBody envMaskFail ["u"] [Outcome.res true (some "x")] 3).2
        = some (Fault.writeFailure "page_1.md")
    ∧ (crawl_parallel envMaskFail ["u"]
        [Outcome.res true (some "x")] 3).2 = some Fault.closeFailure
    ∧ (crawl_parallel envMaskFail ["u"]
        [Outcome.res true (some "x")] 3).1.writes.map Prod.fst = ["page_1.md"]
    ∧ (crawl_parallel envMaskFail ["u"]
        [Outcome.res true (some "x")] 3).1.stats.memory_stats.length = 1 := by
  decide

/-- C6 (amended): when an exception is already in flight at finalization,
`crawler.close()` is still attempted exactly once; but if close fails its
failure propagates in place of the in-flight fatal error (masking it) and
the final snapshot and summary are skipped, while if close succeeds the
final snapshot and the summary write occur and the in-flight error
resumes (provided the summary write itself succeeds). -/
theorem c6_inflight_finalization (env : CrawlEnv) (urls : List String)
    (outs : List Outcome) (c : Nat) (f : Fault)
    (hstart : env.startOk = true)
    (hf : (tryBody env urls outs c).2 = some f) :
    (crawl_parallel env urls outs c).1.closeCount = 1
    ∧ (env.closeOk = false →
        (crawl_parallel env urls outs c).2 = some Fault.closeFailure
        ∧ (crawl_parallel env urls outs c).1.writes
            = (tryBody env urls outs c).1.writes
        ∧ (crawl_parallel env urls outs c).1.stats.memory_stats
            = (tryBody env urls outs c).1.stats.memory_stats)
    ∧ (env.closeOk = true →
        env.writeOk (tryBody env urls outs c).1.writeIdx = true →
        (crawl_parallel env urls outs c).2 = some f
        ∧ (crawl_parallel env urls outs c).1.writes.map Prod.fst
            = (tryBody env urls outs c).1.writes.map Prod.fst
              ++ ["summary.txt"]) := by
  have hcp : crawl_parallel env urls outs c
      = finalize env urls.length (tryBody env urls outs c).1
          (tryBody env urls outs c).2 := by
    simp [crawl_parallel, hstart]
  refine ⟨?_, ?_, ?_⟩
  · rw [hcp, finalize_closeCount, tryBody_closeCount]
  · intro hc
    rw [hcp, finalize_closeFail env urls.length _ _ hc]
    exact ⟨rfl, rfl, rfl⟩
  · intro hc hwid
    obtain ⟨hf1, _, _, _, _, _, hf7⟩ :=
      finalize_counts env urls.length (tryBody env urls outs c).1
        (tryBody env urls outs c).2 hc hwid
    rw [hcp]
    refine ⟨by rw [hf1, hf], ?_⟩
    rw [hf7, List.map_append]
    rfl

/-- Witness for C6 (amended): the masking environment exercises the
close-failure branch; the page-write-failure environment (whose close and
summary write succeed) exercises the resuming branch. -/
theorem c6_inflight_finalization_witness :
    ((crawl_parallel envMaskFail ["u"]
        [Outcome.res true (some "x")] 3).1.closeCount = 1
      ∧ ((crawl_parallel envMaskFail ["u"]
            [Outcome.res true (some "x")] 3).2 = some Fault.closeFailure
        ∧ (crawl_parallel envMaskFail ["u"]
            [Outcome.res true (some "x")] 3).1.writes
            = (tryBody envMaskFail ["u"]
                [Outcome.res true (some "x")] 3).1.writes
        ∧ (crawl_parallel envMaskFail ["u"]
            [Outcome.res true (some "x")] 3).1.stats.memory_stats
            = (tryBody envMaskFail ["u"]
                [Outcome.res true (some "x")] 3).1.stats.memory_stats))
    ∧ ((crawl_parallel envPageFail ["u"]
          [Outcome.res true (some "x")] 3).2
            = some (Fault.writeFailure "page_1.md")
        ∧ (crawl_parallel envPageFail ["u"]
            [Outcome.res true (some "x")] 3).1.writes.map Prod.fst
            = (tryBody envPageFail ["u"]
                [Outcome.res true (some "x")] 3).1.writes.map Prod.fst
              ++ ["summary.txt"]) :=
  ⟨⟨(c6_inflight_finalization envMaskFail ["u"]
      [Outcome.res true (some "x")] 3 (Fault.writeFailure "page_1.md") rfl
      (by decide)).1,
    (c6_inflight_finalization envMaskFail ["u"]
      [Outcome.res true (some "x")] 3 (Fault.writeFailure "page_1.md") rfl
      (by decide)).2.1 rfl⟩,
    (c6_inflight_finalization envPageFail ["u"]
      [Outcome.res true (some "x")] 3 (Fault.writeFailure "page_1.md") rfl
      (by decide)).2.2 rfl (by decide)⟩

/-- `log_memory` sets the running peak to the maximum of the previous
peak and the current reading. -/
lemma log_memory_peak (t : MemoryTracker) (r : Reading) :
    (t.log_memory r).1.peak_memory = max t.peak_memory r.mem := by
  simp only [MemoryTracker.log_memory]
  rcases Nat.lt_or_ge t.peak_memory r.mem with h | h
  · rw [if_pos h]
    exact (Nat.max_eq_right (Nat.le_of_lt h)).symm
  · rw [if_neg (by omega)]
    exact (Nat.max_eq_left h).symm

/-- The running peak never decreases across a `log_memory` call. -/
lemma log_memory_peak_le (t : MemoryTracker) (r : Reading) :
    t.peak_memory ≤ (t.log_memory r).1.peak_memory := by
  simp only [MemoryTracker.log_memory]
  split <;> omega

/-- The snapshot's reported peak is the updated running peak in MB. -/
lemma log_memory_peak_mb (t : MemoryTracker) (r : Reading) :
    (t.log_memory r).2.peak_mb
      = (t.log_memory r).1.peak_memory / (1024 * 1024) := rfl

/-- Within one snapshot the reported current memory never exceeds the
reported peak. -/
lemma log_memory_current_le (t : MemoryTracker) (r : Reading) :
    (t.log_memory r).2.current_mb ≤ (t.log_memory r).2.peak_mb := by
  simp only [MemoryTracker.log_memory]
  exact Nat.div_le_div_right (by split <;> omega)

/-- Run invariant for C8: the recorded snapshots have non-decreasing
reported peaks, every recorded peak is bounded by the tracker's current
running peak (in MB), and each snapshot's current memory is bounded by
its own peak. -/
def memOk (st : RunState) : Prop :=
  List.Chain' (fun a b => a.peak_mb ≤ b.peak_mb) st.stats.memory_stats
  ∧ ∀ ms ∈ st.stats.memory_stats,
      ms.peak_mb ≤ st.tracker.peak_memory / (1024 * 1024)
      ∧ ms.current_mb ≤ ms.peak_mb

/-- The last element of a list is a member. -/
lemma mem_of_getLast? {α : Type} {l : List α} {a : α}
    (h : a ∈ l.getLast?) : a ∈ l := by
  obtain ⟨hne, heq⟩ := List.mem_getLast?_eq_getLast h
  subst heq
  exact List.getLast_mem hne

/-- Appending one fresh snapshot preserves the C8 invariant. -/
lemma snapStep_memOk (env : CrawlEnv) (st : RunState) (h : memOk st) :
    memOk (snapStep env st) := by
  obtain ⟨hch, hall⟩ := h
  have hpk := log_memory_peak_le st.tracker (env.readings st.readIdx)
  have hdiv : st.tracker.peak_memory / (1024 * 1024)
      ≤ (st.tracker.log_memory
          (env.readings st.readIdx)).1.peak_memory / (1024 * 1024) :=
    Nat.div_le_div_right hpk
  constructor
  · show List.Chain' _ (st.stats.memory_stats
      ++ [(st.tracker.log_memory (env.readings st.readIdx)).2])
    rw [List.chain'_append]
    refine ⟨hch, List.chain'_singleton _, ?_⟩
    intro x hx y hy
    simp only [List.head?_cons, Option.mem_def, Option.some.injEq] at hy
    subst hy
    have hx2 := (hall x (mem_of_getLast? hx)).1
    rw [log_memory_peak_mb]
    omega
  · intro ms hms
    show ms.peak_mb ≤ (st.tracker.log_memory
        (env.readings st.readIdx)).1.peak_memory / (1024 * 1024)
      ∧ ms.current_mb ≤ ms.peak_mb
    rcases List.mem_append.mp hms with hold | hnew
    · obtain ⟨h1, h2⟩ := hall ms hold
      exact ⟨Nat.le_trans h1 hdiv, h2⟩
    · simp only [List.mem_singleton] at hnew
      subst hnew
      refine ⟨?_, log_memory_current_le _ _⟩
      rw [log_memory_peak_mb]

/-- The item loop preserves the C8 invariant (it never touches the
snapshots or the tracker). -/
lemma processItems_memOk (env : CrawlEnv) (items : List (String × Outcome))
    (st : RunState) (h : memOk st) :
    memOk (processItems env st items).1 := by
  obtain ⟨hm, ht, _, _⟩ := processItems_frame env items st
  unfold memOk at h ⊢
  rw [hm, ht]
  exact h

/-- The batch loop preserves the C8 invariant in every environment,
including faulting ones. -/
lemma runBatchesGo_memOk (env : CrawlEnv) (c : Nat) :
    ∀ (fuel : Nat) (urls : List String) (outs : List Outcome) (st : RunState),
      memOk st → memOk (runBatchesGo env c fuel urls outs st).1 := by
  intro fuel
  induction fuel with
  | zero => intro urls outs st h; cases urls <;> simpa [runBatchesGo] using h
  | succ n ih =>
    intro urls outs st h
    cases urls with
    | nil => simpa [runBatchesGo] using h
    | cons u us =>
      simp only [runBatchesGo]
      split
      · rename_i st2 f hp
        have hstep := processItems_memOk env
          (((u :: us).take c).zip (outs.take c)) (snapStep env st)
          (snapStep_memOk env st h)
        rw [hp] at hstep
        exact hstep
      · rename_i st2 hp
        apply ih
        have hstep := processItems_memOk env
          (((u :: us).take c).zip (outs.take c)) (snapStep env st)
          (snapStep_memOk env st h)
        rw [hp] at hstep
        exact hstep

/-- Finalization preserves the C8 invariant on every path. -/
lemma finalize_memOk (env : CrawlEnv) (total : Nat) (st : RunState)
    (inflight : Option Fault) (h : memOk st) :
    memOk (finalize env total st inflight).1 := by
  have h1 : memOk { st with closeCount := st.closeCount + 1 } := h
  simp only [finalize]
  split
  · split
    · exact snapStep_memOk env _ h1
    · exact snapStep_memOk env _ h1
  · exact h1

/-- C8: `MemoryTracker.log_memory` reports a peak equal to
`max(previous peak, current memory)` and never lowers the running peak,
each snapshot's reported peak bounds its reported current memory, and in
every run of `crawl_parallel` — whatever the environment does, including
failing starts, writes and closes — the ordered sequence of recorded
snapshots has a monotonically non-decreasing peak-memory field, with no
snapshot's current-memory field exceeding its own peak field. -/
theorem c8_peak_monotonic :
    (∀ (t : MemoryTracker) (r : Reading),
        (t.log_memory r).1.peak_memory = max t.peak_memory r.mem
        ∧ (t.log_memory r).2.peak_mb
            = max t.peak_memory r.mem / (1024 * 1024)
        ∧ (t.log_memory r).2.current_mb ≤ (t.log_memory r).2.peak_mb
        ∧ t.peak_memory ≤ (t.log_memory r).1.peak_memory)
    ∧ (∀ (env : CrawlEnv) (urls : List String) (outs : List Outcome)
        (c : Nat),
        List.Chain' (fun a b => a.peak_mb ≤ b.peak_mb)
          (crawl_parallel env urls outs c).1.stats.memory_stats
        ∧ ∀ ms ∈ (crawl_parallel env urls outs c).1.stats.memory_stats,
            ms.current_mb ≤ ms.peak_mb) := by
  constructor
  · intro t r
    refine ⟨log_memory_peak t r, ?_, log_memory_current_le t r,
      log_memory_peak_le t r⟩
    rw [log_memory_peak_mb, log_memory_peak]
  · intro env urls outs c
    have hinit : memOk initState := by
      constructor
      · simp [initState, initStats]
      · intro ms hms
        simp [initState, initStats] at hms
    have htry : memOk (tryBody env urls outs c).1 := by
      by_cases h0 : c = 0
      · simpa [tryBody, h0] using hinit
      · simp only [tryBody, if_neg h0]
        exact runBatchesGo_memOk env c urls.length urls outs initState hinit
    have hfin : memOk (crawl_parallel env urls outs c).1 := by
      by_cases hs : env.startOk = true
      · simp only [crawl_parallel, hs, if_true]
        exact finalize_memOk env urls.length _ _ htry
      · simp only [Bool.not_eq_true] at hs
        simpa [crawl_parallel, hs] using hinit
    obtain ⟨h1, h2⟩ := hfin
    exact ⟨h1, fun ms hms => (h2 ms hms).2⟩

/-- Witness for C8 at a concrete tracker, reading and run. -/
theorem c8_peak_monotonic_witness :
    ((⟨5⟩ : MemoryTracker).log_memory ⟨3, 0, "t"⟩).1.peak_memory = max 5 3
    ∧ List.Chain' (fun a b => a.peak_mb ≤ b.peak_mb)
        (crawl_parallel envAllOk ["u"]
          [Outcome.res true (some "x")] 3).1.stats.memory_stats :=
  ⟨(c8_peak_monotonic.1 ⟨5⟩ ⟨3, 0, "t"⟩).1,
    (c8_peak_monotonic.2 envAllOk ["u"] [Outcome.res true (some "x")] 3).1⟩

/-- A concrete parsed sitemap whose two `<url><loc>` entries carry the
same URL text. -/
def dupSitemap : XmlNode :=
  XmlNode.elem "\x7bhttp://www.sitemaps.org/schemas/sitemap/0.9\x7durlset"
    none
    [XmlNode.elem "\x7bhttp://www.sitemaps.org/schemas/sitemap/0.9\x7durl"
      none [XmlNode.elem sitemapLocTag (some "https://e.com/a") []],
     XmlNode.elem "\x7bhttp://www.sitemaps.org/schemas/sitemap/0.9\x7durl"
      none [XmlNode.elem sitemapLocTag (some "https://e.com/a") []]]

/-- C9: `get_sitemap_urls` absorbs every failure — a network failure, a
malformed-XML failure, or any other unexpected failure is logged with its
distinguishing kind and yields the empty sequence instead of propagating
— while a successful fetch returns the text of every sitemap-namespace
`<loc>` descendant of the root in document order, with no deduplication
or normalization (the duplicate-entry sitemap keeps both copies). -/
theorem c9_sitemap_error_absorption :
    (∀ m : String, get_sitemap_urls (.clientError m)
        = ([], SitemapLog.netErr m))
    ∧ (∀ m : String, get_sitemap_urls (.parseError m)
        = ([], SitemapLog.xmlErr m))
    ∧ (∀ m : String, get_sitemap_urls (.otherError m)
        = ([], SitemapLog.unexpectedErr m))
    ∧ (∀ root : XmlNode,
        (get_sitemap_urls (.parsed root)).1
          = (root.descendants.filter
              (fun n => n.tag == sitemapLocTag)).map XmlNode.text
        ∧ (get_sitemap_urls (.parsed root)).2
          = SitemapLog.found ((root.descendants.filter
              (fun n => n.tag == sitemapLocTag)).length))
    ∧ (get_sitemap_urls (.parsed dupSitemap)).1
        = [some "https://e.com/a", some "https://e.com/a"] := by
  refine ⟨fun m => rfl, fun m => rfl, fun m => rfl, fun root => ?_, by decide⟩
  constructor
  · rfl
  · simp [get_sitemap_urls, findLocs]

/-- Concrete stats used to compare the rendered summary with the spec's
format block. -/
def exampleStats : Stats :=
  { success_count := 2, fail_count := 1, errors := [("Timeout", 1)]
    memory_stats := [] }

/-- Counterexample for C10: the summary the source renders does not equal
the section-6 format read literally — the source inserts a blank line
between the error-kind list and the peak-memory line and ends with a
trailing newline, which the section-6 block does not show. -/
theorem c10_counterexample :
    ¬ (renderSummary 3 exampleStats ⟨0, 0, 0, "0:01"⟩
        = renderSummarySpec 3 exampleStats ⟨0, 0, 0, "0:01"⟩) := by
  decide

/-- C10 (amended): the rendered summary follows the section-6 format —
header lines, Total URLs, Successful, Failed, one dash line per error
kind in histogram order, peak memory in MB, total time — except that a
blank line separates the error-kind list from the peak-memory line (the
separator degenerates to two blank lines when the histogram is empty) and
the report ends with a trailing newline; and in particular a run of 3
URLs at concurrency limit 2 where all 3 fetches succeed produces batches
of sizes [2, 1] and a summary containing `Successful: 3`, `Failed: 0`
and no error-kind lines. -/
theorem c10_summary_format :
    (∀ (total : Nat) (stats : Stats) (fs : MemStats),
        renderSummary total stats fs = renderSummarySpecFixed total stats fs)
    ∧ (chunks 2 (["a", "b", "c"] : List String)).map List.length = [2, 1]
    ∧ (crawl_parallel envAllOk ["a", "b", "c"]
        [Outcome.res true (some "x"), Outcome.res true (some "x"),
          Outcome.res true (some "x")] 2).1.stats.success_count = 3
    ∧ (crawl_parallel envAllOk ["a", "b", "c"]
        [Outcome.res true (some "x"), Outcome.res true (some "x"),
          Outcome.res true (some "x")] 2).1.stats.fail_count = 0
    ∧ (crawl_parallel envAllOk ["a", "b", "c"]
        [Outcome.res true (some "x"), Outcome.res true (some "x"),
          Outcome.res true (some "x")] 2).1.stats.errors = []
    ∧ (crawl_parallel envAllOk ["a", "b", "c"]
        [Outcome.res true (some "x"), Outcome.res true (some "x"),
          Outcome.res true (some "x")] 2).1.writes.getLast?
        = some ("summary.txt",
            "Crawling Summary\n================\nTotal URLs: 3\nSuccessful: 3\nFailed: 0\nError types:\n\n\nPeak memory usage: 0MB\nTotal time: t\n") := by
  refine ⟨?_, by decide, by decide, by decide, by decide, by decide⟩
  intro total stats fs
  simp only [renderSummary, renderSummarySpecFixed, String.append_assoc]
  rfl
